import Mathlib

/-!
# Verification of the EEG preference-analysis pipeline

Shallow embedding of the core pipeline of this repository
(`src/io_module.py`, `src/preprocess.py`, `src/features.py`) over exact
rationals, together with proofs settling the specification claims.

Modelling conventions:
* A 2-D numpy array (channels × samples) is a `Mat := List (List ℚ)`;
  `data.shape[1]` is the length of the first row (`shape1`).
* Python's `int(x)` (truncation toward zero) is `truncInt`.
* NumPy's global random generator is modelled as an explicit state
  (`RngState`) threaded through the pipeline: `np.random.seed n` resets the
  state to a value determined by `n` alone, and each draw is a pure function
  of the current state.  This captures exactly the properties the code relies
  on (determinism, reset-on-seed, distinct indices for `replace=False`).
* The MNE filter routines and the per-epoch feature computation
  (`scipy.signal.welch`, `antropy`) are external numerical collaborators;
  they are passed as explicit function parameters (`F`, `N`, `CF`), so every
  theorem quantifies over their behaviour.
-/

/-- Python `int(q)`: truncation toward zero. -/
def truncInt (q : ℚ) : ℤ := if 0 ≤ q then ⌊q⌋ else -⌊-q⌋

/-- A 2-D numeric array, rows = channels. -/
abbrev Mat := List (List ℚ)

/-- `data.shape[1]` — the sample count (length of the first channel row). -/
def shape1 (m : Mat) : ℕ := (m.headD []).length

/-- Row slice `row[a:b]`. -/
def sliceRow (row : List ℚ) (a b : ℕ) : List ℚ := (row.drop a).take (b - a)

/-- Column slice `m[:, a:b]`. -/
def sliceCols (m : Mat) (a b : ℕ) : Mat := m.map (fun row => sliceRow row a b)

/-- `np.diff(row)`: adjacent-sample differences within one row. -/
def rowDiff (row : List ℚ) : List ℚ := List.zipWith (fun a b => b - a) row row.tail

/-- Element-wise sum of two matrices. -/
def addMat (a b : Mat) : Mat := List.zipWith (List.zipWith (· + ·)) a b

/-- Sum of a list of matrices. -/
def sumMats : List Mat → Mat
  | [] => []
  | [w] => w
  | w :: rest => addMat w (sumMats rest)

/-- `np.mean(ws, axis=0)`: element-wise average of a list of matrices. -/
def meanMats (ws : List Mat) : Mat :=
  (sumMats ws).map (fun row => row.map (fun x => x / (ws.length : ℚ)))

/-! ## Random-generator model (NumPy global state) -/

/-- The global NumPy RNG state. -/
abbrev RngState := ℕ

/-- `np.random.seed n`: the state after seeding depends on `n` alone. -/
def npSeed (n : ℕ) : RngState := n

/-- `np.random.choice(n, k, replace=False)`: `k` distinct indices below `n`
(when `k ≤ n`), a pure function of the state, plus the successor state. -/
def npChoice (s : RngState) (n k : ℕ) : List ℕ × RngState :=
  ((((List.range n).map (fun i => (i + s) % n)).take k), s + n + k + 1)

/-- `np.random.uniform(1, 9, len)`: `len` draws in `[1, 9]`, pure in the
state, plus the successor state. -/
def npUniformDraws (s : RngState) (len : ℕ) : List ℚ × RngState :=
  (((List.range len).map (fun i => 1 + 8 * (((s + i) % 97 : ℕ) : ℚ) / 97)), s + len)

/-! ## Configuration and record types (`src/utils.py`) -/

/-- `utils.PreferenceLabel`. -/
inductive PreferenceLabel where
  | LIKE
  | DISLIKE
  | NEUTRAL
deriving DecidableEq, Repr

/-- `utils.FilterConfig`. -/
structure FilterConfig where
  l_freq : ℚ
  h_freq : ℚ
  notch_freq : ℚ
  sfreq : ℚ
deriving DecidableEq, Repr

/-- `utils.QCThresholds`. -/
structure QCThresholds where
  amp_uV : ℚ
  diff_uV : ℚ
deriving DecidableEq, Repr

/-- `utils.WindowConfig`. -/
structure WindowConfig where
  baseline_len : ℚ
  baseline_samples : ℕ
  stim_start : ℚ
  stim_end : ℚ
  win_len : ℚ
  stim_samples : ℕ
deriving DecidableEq, Repr

/-- `utils.AppConfig`; `freq_bands` is the list of named (low, high) bands. -/
structure AppConfig where
  filter : FilterConfig
  qc : QCThresholds
  win : WindowConfig
  freq_bands : List (String × ℚ × ℚ)
deriving DecidableEq, Repr

/-- The `utils.py` default configuration values. -/
def defaultConfig : AppConfig :=
  { filter := { l_freq := 1, h_freq := 50, notch_freq := 50, sfreq := 250 }
    qc := { amp_uV := 150, diff_uV := 50 }
    win := { baseline_len := 3, baseline_samples := 2, stim_start := 1/2,
             stim_end := 10, win_len := 1, stim_samples := 5 }
    freq_bands := [("theta", 4, 7), ("alpha", 8, 13), ("beta", 13, 30)] }

/-- `utils.QCResult`. -/
structure QCResult where
  is_valid : Bool
  n_clean_windows : ℕ
  total_windows : ℕ
  quality_score : ℚ
deriving DecidableEq, Repr

/-- One row of a survey table after column normalisation in
`io_module.load_survey_data`; `none` models a missing (NaN) cell or an
absent column. -/
structure SurveyRow where
  trial_id : ℤ
  like_score : Option ℚ
  valence : Option ℚ
  arousal : Option ℚ
deriving DecidableEq, Repr

/-- One MNE event row `[sample, 0, event_id]`. -/
structure Event where
  sample : ℤ
  event_id : ℤ
deriving DecidableEq, Repr

/-- `utils.TrialData`. -/
structure TrialData where
  subject_id : String
  trial_id : ℤ
  preference : PreferenceLabel
  raw_baseline_data : Mat
  raw_stim_data : Mat
  valence : Option ℚ := none
  arousal : Option ℚ := none
  filtered_baseline_data : Option Mat := none
  filtered_stim_data : Option Mat := none
  clean_baseline_data : Option Mat := none
  clean_stim_data : Option Mat := none
  is_valid : Bool := false
  qc_baseline : Option QCResult := none
  qc_stim : Option QCResult := none
deriving DecidableEq, Repr

/-! ## Quality control (`src/preprocess.py`) -/

/-- `np.abs`, written so that it evaluates by kernel reduction. -/
def npAbs (q : ℚ) : ℚ := if q < 0 then -q else q

/-- `preprocess.check_window_quality` (the `window is None` branch is
unreachable here since windows are always slices of an array): a window is
rejected when any sample magnitude strictly exceeds `amp_uV`, or any
adjacent-sample difference magnitude strictly exceeds `diff_uV`. -/
def check_window_quality (window : Mat) (config : AppConfig) : Bool :=
  if window.any (fun row => row.any (fun x => decide (config.qc.amp_uV < npAbs x))) then
    false
  else if window.any (fun row => (rowDiff row).any (fun d => decide (config.qc.diff_uV < npAbs d))) then
    false
  else
    true

/-- `int(config.win.win_len * config.filter.sfreq)` as a sample count. -/
def winLenSamples (config : AppConfig) : ℕ :=
  (truncInt (config.win.win_len * config.filter.sfreq)).toNat

/-- The non-overlapping windows `data[:, i*w:(i+1)*w]`, `i < shape1 data / w`. -/
def windowsOf (d : Mat) (w : ℕ) : List Mat :=
  (List.range (shape1 d / w)).map (fun i => sliceCols d (i * w) ((i + 1) * w))

/-- The windows of `d` passing `check_window_quality`. -/
def cleanWindows (d : Mat) (config : AppConfig) : List Mat :=
  (windowsOf d (winLenSamples config)).filter (fun w => check_window_quality w config)

/-- The indices drawn by `np.random.choice(n, k, replace=False)` right after
`np.random.seed(42)`. -/
def chosenIdx (n k : ℕ) : List ℕ := (npChoice (npSeed 42) n k).1

/-- `preprocess.get_clean_windows`.  Returns the averaged epoch (or `None`),
the `QCResult`, and the RNG state after the call. -/
def get_clean_windows (data : Option Mat) (config : AppConfig) (num_samples_to_take : ℕ)
    (s : RngState) : Option Mat × QCResult × RngState :=
  match data with
  | none => (none, ⟨false, 0, 0, 0⟩, s)
  | some d =>
    if shape1 d < winLenSamples config then
      (none, ⟨false, 0, 0, 0⟩, s)
    else
      let total_windows := shape1 d / winLenSamples config
      let clean := cleanWindows d config
      let quality_score : ℚ :=
        if 0 < total_windows then (clean.length : ℚ) / (total_windows : ℚ) else 0
      if num_samples_to_take ≤ clean.length then
        (some (meanMats ((chosenIdx clean.length num_samples_to_take).map
            (fun i => clean.getD i []))),
         ⟨true, clean.length, total_windows, quality_score⟩,
         (npChoice (npSeed 42) clean.length num_samples_to_take).2)
      else
        (none, ⟨false, clean.length, total_windows, quality_score⟩, s)

/-! ## Filtering and the preprocessing pipeline (`src/preprocess.py`) -/

/-- `preprocess.filter_data`: segments shorter than 10 samples pass through
unfiltered; otherwise the (external) MNE band-pass filter `F` is applied.
The `data is None` branch is unreachable here: raw segments are arrays. -/
def filter_data (F : AppConfig → Mat → Mat) (data : Mat) (config : AppConfig) : Mat :=
  if shape1 data < 10 then data else F config data

/-- `preprocess.notch_filter_data` with external notch filter `N`. -/
def notch_filter_data (N : AppConfig → Mat → Mat) (data : Mat) (config : AppConfig) : Mat :=
  if shape1 data < 10 then data else N config data

/-- One row of the QC summary table built in `run_preprocessing_pipeline`. -/
structure QCSummaryRow where
  subject_id : String
  trial_id : ℤ
  preference : PreferenceLabel
  is_valid : Bool
  baseline_clean_windows : ℕ
  baseline_total_windows : ℕ
  stim_clean_windows : ℕ
  stim_total_windows : ℕ
deriving DecidableEq, Repr

/-- The body of the `for trial in all_trials` loop of
`preprocess.run_preprocessing_pipeline`: filter both segments, run QC on
each, set the trial-level validity, and emit the summary row.  The RNG state
is threaded through the two `get_clean_windows` calls. -/
def process_trial (F N : AppConfig → Mat → Mat) (config : AppConfig)
    (trial : TrialData) (s : RngState) : TrialData × QCSummaryRow × RngState :=
  let fb := notch_filter_data N (filter_data F trial.raw_baseline_data config) config
  let stim_offset_samples := (truncInt (config.win.stim_start * config.filter.sfreq)).toNat
  let stim_for_filtering := trial.raw_stim_data.map (fun row => row.drop stim_offset_samples)
  let fs := notch_filter_data N (filter_data F stim_for_filtering config) config
  let rb := get_clean_windows (some fb) config config.win.baseline_samples s
  let rs := get_clean_windows (some fs) config config.win.stim_samples rb.2.2
  let t' := { trial with
      filtered_baseline_data := some fb
      filtered_stim_data := some fs
      clean_baseline_data := rb.1
      clean_stim_data := rs.1
      qc_baseline := some rb.2.1
      qc_stim := some rs.2.1
      is_valid := rb.2.1.is_valid && rs.2.1.is_valid }
  (t',
   ⟨trial.subject_id, trial.trial_id, trial.preference, t'.is_valid,
    rb.2.1.n_clean_windows, rb.2.1.total_windows,
    rs.2.1.n_clean_windows, rs.2.1.total_windows⟩,
   rs.2.2)

/-- `preprocess.run_preprocessing_pipeline`: processed trials, QC summary
rows, and the final RNG state. -/
def run_preprocessing_pipeline (F N : AppConfig → Mat → Mat)
    (all_trials : List TrialData) (config : AppConfig) (s : RngState) :
    List TrialData × List QCSummaryRow × RngState :=
  match all_trials with
  | [] => ([], [], s)
  | trial :: rest =>
    let r := process_trial F N config trial s
    let rec_ := run_preprocessing_pipeline F N rest config r.2.2
    (r.1 :: rec_.1, r.2.1 :: rec_.2.1, rec_.2.2)

/-! ## Feature extraction (`src/features.py`) -/

/-- The `1e-9` guard added to every baseline feature value. -/
def eps : ℚ := 1 / 1000000000

/-- Dictionary lookup `stim_feats[feat_name]`; in the source both
dictionaries are produced by the same function on different epochs, so the
key is always present and the default is never used. -/
def lookupFeat (feats : List (String × ℚ × ℚ)) (name : String) : ℚ × ℚ :=
  ((feats.find? (fun q => q.1 == name)).map (fun q => q.2)).getD (0, 0)

/-- The ratio/asymmetry loop of `features.extract_all_features` (lines
50–62): for each feature name, `base_val = baseline + 1e-9`,
`ratio = (stim - base_val) / base_val` per channel, then the FP1/FP2 ratio
columns and the asymmetry column `ratio[1] - ratio[0]`. -/
def ratioCols (baseline_feats stim_feats : List (String × ℚ × ℚ)) : List (String × ℚ) :=
  baseline_feats.flatMap (fun p =>
    let base_val_1 := p.2.1 + eps
    let base_val_2 := p.2.2 + eps
    let stim_val := lookupFeat stim_feats p.1
    let ratio_1 := (stim_val.1 - base_val_1) / base_val_1
    let ratio_2 := (stim_val.2 - base_val_2) / base_val_2
    [("FP1_" ++ p.1 ++ "_ratio", ratio_1),
     ("FP2_" ++ p.1 ++ "_ratio", ratio_2),
     (p.1 ++ "_asymmetry", ratio_2 - ratio_1)])

/-- One row of the feature table; `cols` are the ratio/asymmetry columns in
emission order, `dummy_valence` the synthetic uniform column. -/
structure FeatureRow where
  subject_id : String
  trial_id : ℤ
  preference : PreferenceLabel
  cols : List (String × ℚ)
  dummy_valence : Option ℚ
deriving DecidableEq, Repr

/-- The per-trial body of `features.extract_all_features`: invalid trials
are skipped (`if not trial.is_valid: continue`); for valid trials the
feature dictionaries of both clean epochs are computed by the external
feature function `CF` (`compute_features_for_epoch`) and turned into ratio
and asymmetry columns. -/
def featureRowOf (CF : AppConfig → Mat → List (String × ℚ × ℚ)) (config : AppConfig)
    (trial : TrialData) : Option FeatureRow :=
  if trial.is_valid then
    let baseline_feats := CF config (trial.clean_baseline_data.getD [])
    let stim_feats := CF config (trial.clean_stim_data.getD [])
    some ⟨trial.subject_id, trial.trial_id, trial.preference,
          ratioCols baseline_feats stim_feats, none⟩
  else none

/-- `features.extract_all_features`: assemble one row per valid trial; when
the table is non-empty, append the `dummy_valence` column drawn from the
global RNG (`np.random.uniform(1, 9, len(df))`, not reseeded). -/
def extract_all_features (CF : AppConfig → Mat → List (String × ℚ × ℚ))
    (processed_trials : List TrialData) (config : AppConfig) (s : RngState) :
    List FeatureRow × RngState :=
  let feature_list := processed_trials.filterMap (featureRowOf CF config)
  if feature_list.isEmpty then
    (feature_list, s)
  else
    let draws := npUniformDraws s feature_list.length
    (List.zipWith (fun r v => { r with dummy_valence := some v }) feature_list draws.1,
     draws.2)

/-! ## Trial extraction and loading (`src/io_module.py`) -/

/-- The survey-join part of `io_module.extract_trials` (lines 158–168):
the rows matching `trial_id` are looked up, the **first** matching row is
taken (`iloc[0]`), and preference / valence / arousal are read from it;
everything defaults when absent. -/
def surveyFields (survey : Option (List SurveyRow)) (trial_id : ℤ) :
    PreferenceLabel × Option ℚ × Option ℚ :=
  match survey with
  | none => (PreferenceLabel.NEUTRAL, none, none)
  | some rows =>
    if rows.isEmpty then (PreferenceLabel.NEUTRAL, none, none)
    else
      match (rows.filter (fun r => decide (r.trial_id = trial_id))).head? with
      | none => (PreferenceLabel.NEUTRAL, none, none)
      | some row =>
        let pref :=
          match row.like_score with
          | none => PreferenceLabel.NEUTRAL
          | some score =>
            if 6 ≤ score then PreferenceLabel.LIKE
            else if score ≤ 2 then PreferenceLabel.DISLIKE
            else PreferenceLabel.NEUTRAL
        (pref, row.valence, row.arousal)

/-- The per-event body of `io_module.extract_trials`: segment bounds are
computed from the config, out-of-bounds events are dropped (`continue`), and
a `TrialData` is assembled from the raw slices and the survey join.
`raw.info['sfreq']` equals `config.filter.sfreq`, which the loader wrote
back while parsing the recording. -/
def mkTrialOfEvent (raw : Mat) (config : AppConfig) (subject_id : String)
    (survey : Option (List SurveyRow)) (e : Event) : Option TrialData :=
  let trial_id := e.event_id
  let event_sample := e.sample
  let baseline_start := event_sample - truncInt (config.win.baseline_len * config.filter.sfreq)
  let stim_end := event_sample + truncInt (config.win.stim_end * config.filter.sfreq)
  if baseline_start < 0 ∨ (shape1 raw : ℤ) < stim_end then none
  else
    let baseline_data := sliceCols raw baseline_start.toNat event_sample.toNat
    let stim_data := sliceCols raw event_sample.toNat stim_end.toNat
    let sv := surveyFields survey trial_id
    some { subject_id := subject_id, trial_id := trial_id, preference := sv.1,
           raw_baseline_data := baseline_data, raw_stim_data := stim_data,
           valence := sv.2.1, arousal := sv.2.2 }

/-- `io_module.extract_trials`: when any event code exceeds 2, keep only
events with code above 2 (`events[events[:, 2] > 2]`); otherwise keep all
events.  Then build one trial per surviving in-bounds event. -/
def extract_trials (raw : Mat) (events : List Event) (config : AppConfig)
    (subject_id : String) (survey : Option (List SurveyRow)) : List TrialData :=
  let valid_events :=
    if events.any (fun e => decide (2 < e.event_id)) then
      events.filter (fun e => decide (2 < e.event_id))
    else events
  valid_events.filterMap (mkTrialOfEvent raw config subject_id survey)

/-- `pandas.DataFrame.drop_duplicates(subset=key, keep='first')`: keep each
element whose key has not appeared earlier in the list. -/
def drop_duplicates_first {α β : Type} [DecidableEq β] (key : α → β) : List α → List α
  | [] => []
  | x :: xs =>
    x :: drop_duplicates_first key (xs.filter (fun y => decide (¬ key y = key x)))
termination_by l => l.length
decreasing_by
  simp only [List.length_cons]
  exact Nat.lt_succ_of_le (List.length_filter_le _ _)

/-- The deduplication step of `io_module.load_all_trial_data` (lines
231–236): unique events (first occurrence per event code kept) plus the
recorded notice `(detected, unique)` counts, emitted only when duplicates
were dropped. -/
def resolve_unique_events {α β : Type} [DecidableEq β] (key : α → β) (events : List α) :
    List α × Option (ℕ × ℕ) :=
  let unique_events := drop_duplicates_first key events
  (unique_events,
   if unique_events.length < events.length then
     some (events.length, unique_events.length)
   else none)

/-- The decoded per-subject input to `load_all_trial_data`: the recording
matrix and events produced by the external parser (`pyxdf`/MNE) and the
already-normalised survey rows. -/
structure SubjectInput where
  subject_id : String
  raw : Mat
  events : List Event
  survey : Option (List SurveyRow)

/-- `io_module.load_all_trial_data`, modelled at the decoded-input
interface (file parsing, temporary-file handling, and UI notices are
external): per subject, deduplicate the events and extract the trials. -/
def load_all_trial_data (subjects : List SubjectInput) (config : AppConfig) :
    List TrialData :=
  subjects.flatMap (fun sub =>
    extract_trials sub.raw (resolve_unique_events (fun e => e.event_id) sub.events).1
      config sub.subject_id sub.survey)

/-- The full pipeline of `app.run_full_pipeline`:
`load_all_trial_data` → `run_preprocessing_pipeline` → `extract_all_features`,
with the global RNG state threaded through. -/
def run_full_pipeline (F N : AppConfig → Mat → Mat)
    (CF : AppConfig → Mat → List (String × ℚ × ℚ))
    (subjects : List SubjectInput) (config : AppConfig) (s : RngState) :
    List TrialData × List QCSummaryRow × List FeatureRow × RngState :=
  let all_trials := load_all_trial_data subjects config
  let pre := run_preprocessing_pipeline F N all_trials config s
  let feats := extract_all_features CF pre.1 config pre.2.2
  (pre.1, pre.2.1, feats.1, feats.2)

/-! ## Derived notions and concrete inputs used by the theorems -/

/-- Validity stored in an optional `QCResult` (false when absent; in the
pipeline the field is always present). -/
def qcValid (o : Option QCResult) : Bool := (o.map QCResult.is_valid).getD false

/-- Identity stand-in for the external MNE filters in concrete runs. -/
def idFilter : AppConfig → Mat → Mat := fun _ m => m

/-- A small test configuration: 1 Hz sampling, 2-sample windows, amplitude
threshold 10, one window required per segment. -/
def c3cfg : AppConfig :=
  { filter := { l_freq := 1, h_freq := 50, notch_freq := 50, sfreq := 1 }
    qc := { amp_uV := 10, diff_uV := 1000 }
    win := { baseline_len := 2, baseline_samples := 1, stim_start := 0,
             stim_end := 2, win_len := 2, stim_samples := 1 }
    freq_bands := [] }

/-- A minimal input trial for concrete pipeline runs. -/
def c3trial : TrialData :=
  { subject_id := "Sub1", trial_id := 3, preference := PreferenceLabel.NEUTRAL,
    raw_baseline_data := [[0, 0]], raw_stim_data := [[0, 0]] }

/-- Like `c3cfg` but requiring 2 windows per segment. -/
def c9cfg : AppConfig :=
  { filter := { l_freq := 1, h_freq := 50, notch_freq := 50, sfreq := 1 }
    qc := { amp_uV := 10, diff_uV := 1000 }
    win := { baseline_len := 2, baseline_samples := 2, stim_start := 0,
             stim_end := 6, win_len := 2, stim_samples := 2 }
    freq_bands := [] }

/-- One channel, 6 samples = 3 windows of which exactly the first is clean
under `c9cfg` (amplitude threshold 10). -/
def c9data : Mat := [[0, 0, 100, 0, 0, 100]]

/-- One channel, 4 samples = 2 windows, both clean under `c9cfg`. -/
def c9dataW : Mat := [[0, 0, 0, 0]]

/-- A trial that failed stimulus QC with 1 clean of 3 windows. -/
def c9trial : TrialData :=
  { subject_id := "Sub1", trial_id := 3, preference := PreferenceLabel.NEUTRAL,
    raw_baseline_data := [[0, 0]], raw_stim_data := c9data,
    is_valid := false, qc_baseline := some ⟨true, 1, 1, 1⟩,
    qc_stim := some ⟨false, 1, 3, 1/3⟩ }

/-- A feature function assigning the constant per-channel value 0 to the
single feature "f" (the value a real feature such as the variance-based
differential entropy takes on an all-zero epoch). -/
def c2cf : AppConfig → Mat → List (String × ℚ × ℚ) := fun _ _ => [("f", 0, 0)]

/-- A valid trial with all-zero clean epochs. -/
def c2trial : TrialData :=
  { subject_id := "Sub1", trial_id := 3, preference := PreferenceLabel.NEUTRAL,
    raw_baseline_data := [[0, 0]], raw_stim_data := [[0, 0]],
    clean_baseline_data := some [[0, 0]], clean_stim_data := some [[0, 0]],
    is_valid := true }

/-- Survey rows for trial 5: the first matching row has a missing score, a
later matching row carries the score 9. -/
def c8survey : List SurveyRow := [⟨5, none, none, none⟩, ⟨5, some 9, none, none⟩]

/-- A 3-sample recording. -/
def c8raw : Mat := [[0, 0, 0]]

/-- A single event with code 5 at sample 1. -/
def c8event : Event := ⟨1, 5⟩

/-- Configuration making both segments of `c8event` fit inside `c8raw`. -/
def c8cfg : AppConfig :=
  { filter := { l_freq := 1, h_freq := 50, notch_freq := 50, sfreq := 1 }
    qc := { amp_uV := 10, diff_uV := 1000 }
    win := { baseline_len := 1, baseline_samples := 1, stim_start := 0,
             stim_end := 1, win_len := 1, stim_samples := 1 }
    freq_bands := [] }

/-- Events mixing a practice code (≤ 2) and a stimulus code (> 2). -/
def c10events : List Event := [⟨1, 1⟩, ⟨1, 5⟩]

/-- The amended preference rule (spec side, for comparison with the code):
the **first** survey row matching the trial id decides — LIKE if its score
is ≥ 6, DISLIKE if ≤ 2, NEUTRAL otherwise or when the first matching row's
score is missing; NEUTRAL when no row matches. -/
def firstMatchPreference (survey : Option (List SurveyRow)) (trial_id : ℤ) :
    PreferenceLabel :=
  match ((survey.getD []).filter (fun r => decide (r.trial_id = trial_id))).head? with
  | none => PreferenceLabel.NEUTRAL
  | some row =>
    match row.like_score with
    | none => PreferenceLabel.NEUTRAL
    | some score =>
      if 6 ≤ score then PreferenceLabel.LIKE
      else if score ≤ 2 then PreferenceLabel.DISLIKE
      else PreferenceLabel.NEUTRAL

/-- The trial `extract_trials` produces from `c8raw`/`c8event`/`c8survey`. -/
def c8trialOut : TrialData :=
  { subject_id := "Sub1", trial_id := 5, preference := PreferenceLabel.NEUTRAL,
    raw_baseline_data := [[0]], raw_stim_data := [[0]] }

/-! ## Helper lemmas -/

theorem npAbs_eq_abs (q : ℚ) : npAbs q = |q| := by
  unfold npAbs
  split_ifs with h
  · exact (abs_of_neg h).symm
  · exact (abs_of_nonneg (not_lt.mp h)).symm

/-! ### Case lemmas for `get_clean_windows` -/

theorem gcw_none (config : AppConfig) (k : ℕ) (s : RngState) :
    get_clean_windows none config k s = (none, ⟨false, 0, 0, 0⟩, s) := rfl

theorem gcw_short {d : Mat} {config : AppConfig} (k : ℕ) (s : RngState)
    (h : shape1 d < winLenSamples config) :
    get_clean_windows (some d) config k s = (none, ⟨false, 0, 0, 0⟩, s) := by
  simp [get_clean_windows, h]

theorem gcw_valid {d : Mat} {config : AppConfig} {k : ℕ} (s : RngState)
    (h : ¬ shape1 d < winLenSamples config) (hk : k ≤ (cleanWindows d config).length) :
    get_clean_windows (some d) config k s =
      (some (meanMats ((chosenIdx (cleanWindows d config).length k).map
          (fun i => (cleanWindows d config).getD i []))),
       ⟨true, (cleanWindows d config).length, shape1 d / winLenSamples config,
        if 0 < shape1 d / winLenSamples config then
          ((cleanWindows d config).length : ℚ) / ((shape1 d / winLenSamples config : ℕ) : ℚ)
        else 0⟩,
       (npChoice (npSeed 42) (cleanWindows d config).length k).2) := by
  simp [get_clean_windows, h, hk]

theorem gcw_invalid {d : Mat} {config : AppConfig} {k : ℕ} (s : RngState)
    (h : ¬ shape1 d < winLenSamples config) (hk : ¬ k ≤ (cleanWindows d config).length) :
    get_clean_windows (some d) config k s =
      (none,
       ⟨false, (cleanWindows d config).length, shape1 d / winLenSamples config,
        if 0 < shape1 d / winLenSamples config then
          ((cleanWindows d config).length : ℚ) / ((shape1 d / winLenSamples config : ℕ) : ℚ)
        else 0⟩,
       s) := by
  simp [get_clean_windows, h, hk]

/-- Characterisation of the window-quality predicate: a window is accepted
iff every sample magnitude is at most `amp_uV` **and** every adjacent-sample
difference magnitude is at most `diff_uV` (both comparisons strict in the
rejection direction). -/
theorem check_window_quality_iff (w : Mat) (config : AppConfig) :
    check_window_quality w config = true ↔
      ((∀ row ∈ w, ∀ x ∈ row, |x| ≤ config.qc.amp_uV) ∧
       (∀ row ∈ w, ∀ d ∈ rowDiff row, |d| ≤ config.qc.diff_uV)) := by
  unfold check_window_quality
  simp only [npAbs_eq_abs]
  split_ifs with h1 h2
  · simp only [false_iff]
    intro hc
    rcases List.any_eq_true.mp h1 with ⟨row, hrow, hx⟩
    rcases List.any_eq_true.mp hx with ⟨x, hxm, hlt⟩
    exact absurd (hc.1 row hrow x hxm) (not_le.mpr (of_decide_eq_true hlt))
  · simp only [false_iff]
    intro hc
    rcases List.any_eq_true.mp h2 with ⟨row, hrow, hx⟩
    rcases List.any_eq_true.mp hx with ⟨d, hdm, hlt⟩
    exact absurd (hc.2 row hrow d hdm) (not_le.mpr (of_decide_eq_true hlt))
  · simp only [true_iff]
    constructor
    · intro row hrow x hxm
      by_contra hgt
      exact h1 (List.any_eq_true.mpr ⟨row, hrow,
        List.any_eq_true.mpr ⟨x, hxm, decide_eq_true (not_le.mp hgt)⟩⟩)
    · intro row hrow d hdm
      by_contra hgt
      exact h2 (List.any_eq_true.mpr ⟨row, hrow,
        List.any_eq_true.mpr ⟨d, hdm, decide_eq_true (not_le.mp hgt)⟩⟩)

/-- Filtering with a pointwise weaker predicate keeps at least as many
elements. -/
theorem filter_length_mono {α : Type} {p q : α → Bool} :
    ∀ l : List α, (∀ a ∈ l, p a = true → q a = true) →
      (l.filter p).length ≤ (l.filter q).length := by
  intro l
  induction l with
  | nil => intro _; exact le_refl _
  | cons a l ih =>
    intro h
    by_cases hp : p a = true
    · have hq := h a (List.mem_cons_self a l) hp
      simp only [List.filter_cons, hp, hq, if_true, List.length_cons]
      exact Nat.succ_le_succ (ih fun b hb => h b (List.mem_cons_of_mem a hb))
    · have hle := ih fun b hb => h b (List.mem_cons_of_mem a hb)
      by_cases hq : q a = true
      · simp only [List.filter_cons, hp, hq, if_true, if_false, List.length_cons]
        exact le_trans hle (Nat.le_succ _)
      · simp only [List.filter_cons, hp, hq, if_false]
        exact hle

/-- The reported `n_clean_windows` is the number of accepted windows
(whenever the segment is long enough to window at all). -/
theorem gcw_nclean {d : Mat} {config : AppConfig} (k : ℕ) (s : RngState)
    (h : ¬ shape1 d < winLenSamples config) :
    (get_clean_windows (some d) config k s).2.1.n_clean_windows =
      (cleanWindows d config).length := by
  by_cases hk : k ≤ (cleanWindows d config).length
  · rw [gcw_valid s h hk]
  · rw [gcw_invalid s h hk]

/-- The epoch of `get_clean_windows` is present exactly when the produced
`QCResult` is valid. -/
theorem gcw_isSome_eq_valid (data : Option Mat) (config : AppConfig) (k : ℕ) (s : RngState) :
    (get_clean_windows data config k s).1.isSome =
      (get_clean_windows data config k s).2.1.is_valid := by
  cases data with
  | none => rfl
  | some d =>
    by_cases h : shape1 d < winLenSamples config
    · rw [gcw_short k s h]
      rfl
    · by_cases hk : k ≤ (cleanWindows d config).length
      · rw [gcw_valid s h hk]
        rfl
      · rw [gcw_invalid s h hk]
        rfl

/-- Per-trial postcondition of the preprocessing loop body. -/
theorem process_trial_post (F N : AppConfig → Mat → Mat) (config : AppConfig)
    (trial : TrialData) (s : RngState) :
    let t := (process_trial F N config trial s).1
    t.qc_baseline.isSome = true ∧ t.qc_stim.isSome = true ∧
      t.is_valid = (qcValid t.qc_baseline && qcValid t.qc_stim) ∧
      t.clean_baseline_data.isSome = qcValid t.qc_baseline ∧
      t.clean_stim_data.isSome = qcValid t.qc_stim := by
  refine ⟨rfl, rfl, rfl, ?_, ?_⟩
  · exact gcw_isSome_eq_valid _ _ _ _
  · exact gcw_isSome_eq_valid _ _ _ _

/-! ## C4 — strict threshold comparison in the window-quality predicate -/

/-- C4: the window-quality predicate compares strictly against both
thresholds: a window is accepted iff no sample magnitude strictly exceeds
the amplitude threshold and no adjacent-sample difference magnitude strictly
exceeds the difference threshold.  In particular (default thresholds 150/50):
a sample exactly at the amplitude threshold is not rejected, one unit above
is rejected; a difference exactly at the difference threshold is not
rejected, and one strictly above is rejected. -/
theorem c4_threshold_strict :
    (∀ (w : Mat) (config : AppConfig),
        check_window_quality w config = true ↔
          ((∀ row ∈ w, ∀ x ∈ row, |x| ≤ config.qc.amp_uV) ∧
           (∀ row ∈ w, ∀ d ∈ rowDiff row, |d| ≤ config.qc.diff_uV))) ∧
    check_window_quality [[150]] defaultConfig = true ∧
    check_window_quality [[151]] defaultConfig = false ∧
    check_window_quality [[0, 50]] defaultConfig = true ∧
    check_window_quality [[0, 51]] defaultConfig = false :=
  ⟨check_window_quality_iff,
   by norm_num [check_window_quality, rowDiff, npAbs, defaultConfig],
   by norm_num [check_window_quality, rowDiff, npAbs, defaultConfig],
   by norm_num [check_window_quality, rowDiff, npAbs, defaultConfig],
   by norm_num [check_window_quality, rowDiff, npAbs, defaultConfig]⟩

/-! ## C5 — QC monotonicity in the thresholds -/

/-- A window accepted under smaller (tighter) thresholds is accepted under
the larger ones. -/
theorem check_window_quality_mono {config : AppConfig} {q' : QCThresholds} (w : Mat)
    (hamp : q'.amp_uV ≤ config.qc.amp_uV) (hdiff : q'.diff_uV ≤ config.qc.diff_uV) :
    check_window_quality w { config with qc := q' } = true →
      check_window_quality w config = true := by
  intro h
  rw [check_window_quality_iff] at h ⊢
  exact ⟨fun row hrow x hx => le_trans (h.1 row hrow x hx) hamp,
         fun row hrow d hd => le_trans (h.2 row hrow d hd) hdiff⟩

/-- C5: for fixed segment data and window configuration, replacing the QC
thresholds by smaller ones never increases the reported `n_clean_windows`. -/
theorem c5_qc_monotone (d : Mat) (config : AppConfig) (q' : QCThresholds)
    (k : ℕ) (s s' : RngState)
    (hamp : q'.amp_uV ≤ config.qc.amp_uV) (hdiff : q'.diff_uV ≤ config.qc.diff_uV) :
    (get_clean_windows (some d) { config with qc := q' } k s).2.1.n_clean_windows ≤
      (get_clean_windows (some d) config k s').2.1.n_clean_windows := by
  have hwls : winLenSamples { config with qc := q' } = winLenSamples config := rfl
  by_cases h : shape1 d < winLenSamples config
  · rw [gcw_short k s (by rw [hwls]; exact h), gcw_short k s' h]
  · rw [gcw_nclean k s (by rw [hwls]; exact h), gcw_nclean k s' h]
    unfold cleanWindows
    rw [hwls]
    exact filter_length_mono _
      (fun w _ => check_window_quality_mono w hamp hdiff)

/-- Concrete instantiation of `c5_qc_monotone` (thresholds 100/50 tightened
from the defaults 150/50, a two-sample one-channel segment). -/
theorem c5_qc_monotone_witness :
    ((100 : ℚ) ≤ 150 ∧ (50 : ℚ) ≤ 50) ∧
    (get_clean_windows (some [[0, 0]]) { defaultConfig with qc := ⟨100, 50⟩ } 1 0).2.1.n_clean_windows ≤
      (get_clean_windows (some [[0, 0]]) defaultConfig 1 0).2.1.n_clean_windows :=
  ⟨⟨by norm_num, le_refl _⟩,
   c5_qc_monotone [[0, 0]] defaultConfig ⟨100, 50⟩ 1 0 0 (by norm_num [defaultConfig])
     (by norm_num [defaultConfig])⟩

/-! ## C3 — validity invariant after preprocessing -/

/-- C3: after `run_preprocessing_pipeline`, every trial carries both QC
results, its `is_valid` flag is the conjunction of the two segment-level
validity flags, and each clean epoch is present exactly when the
corresponding QC result is valid. -/
theorem c3_validity_invariant (F N : AppConfig → Mat → Mat)
    (all_trials : List TrialData) (config : AppConfig) (s : RngState) :
    ∀ t ∈ (run_preprocessing_pipeline F N all_trials config s).1,
      t.qc_baseline.isSome = true ∧ t.qc_stim.isSome = true ∧
      t.is_valid = (qcValid t.qc_baseline && qcValid t.qc_stim) ∧
      t.clean_baseline_data.isSome = qcValid t.qc_baseline ∧
      t.clean_stim_data.isSome = qcValid t.qc_stim := by
  induction all_trials generalizing s with
  | nil =>
    intro t ht
    simp [run_preprocessing_pipeline] at ht
  | cons a rest ih =>
    intro t ht
    simp only [run_preprocessing_pipeline, List.mem_cons] at ht
    rcases ht with h | h
    · subst h
      exact process_trial_post F N config a s
    · exact ih _ t h

/-- Concrete instantiation of `c3_validity_invariant`: the invariant for the
trial produced by a one-trial pipeline run with identity filters. -/
theorem c3_validity_invariant_witness :
    (process_trial idFilter idFilter c3cfg c3trial 0).1 ∈
      (run_preprocessing_pipeline idFilter idFilter [c3trial] c3cfg 0).1 ∧
    ((process_trial idFilter idFilter c3cfg c3trial 0).1.qc_baseline.isSome = true ∧
     (process_trial idFilter idFilter c3cfg c3trial 0).1.qc_stim.isSome = true ∧
     (process_trial idFilter idFilter c3cfg c3trial 0).1.is_valid =
       (qcValid (process_trial idFilter idFilter c3cfg c3trial 0).1.qc_baseline &&
        qcValid (process_trial idFilter idFilter c3cfg c3trial 0).1.qc_stim) ∧
     (process_trial idFilter idFilter c3cfg c3trial 0).1.clean_baseline_data.isSome =
       qcValid (process_trial idFilter idFilter c3cfg c3trial 0).1.qc_baseline ∧
     (process_trial idFilter idFilter c3cfg c3trial 0).1.clean_stim_data.isSome =
       qcValid (process_trial idFilter idFilter c3cfg c3trial 0).1.qc_stim) :=
  ⟨List.mem_cons_self _ _,
   c3_validity_invariant idFilter idFilter [c3trial] c3cfg 0 _ (List.mem_cons_self _ _)⟩

/-! ## Determinism machinery for C1 -/

/-- The epoch and the `QCResult` returned by `get_clean_windows` do not
depend on the incoming RNG state (the call reseeds before drawing). -/
theorem gcw_out_const (data : Option Mat) (config : AppConfig) (k : ℕ) (s s' : RngState) :
    (get_clean_windows data config k s).1 = (get_clean_windows data config k s').1 ∧
    (get_clean_windows data config k s).2.1 = (get_clean_windows data config k s').2.1 := by
  cases data with
  | none => exact ⟨rfl, rfl⟩
  | some d =>
    by_cases h : shape1 d < winLenSamples config
    · rw [gcw_short k s h, gcw_short k s' h]
      exact ⟨rfl, rfl⟩
    · by_cases hk : k ≤ (cleanWindows d config).length
      · rw [gcw_valid s h hk, gcw_valid s' h hk]
        exact ⟨rfl, rfl⟩
      · rw [gcw_invalid s h hk, gcw_invalid s' h hk]
        exact ⟨rfl, rfl⟩

/-- When the segment passes QC, even the RNG state after
`get_clean_windows` is independent of the incoming state: `np.random.seed(42)`
was executed, so the state is a function of the data alone. -/
theorem gcw_state_const {data : Option Mat} {config : AppConfig} {k : ℕ} {s : RngState}
    (s' : RngState)
    (hv : (get_clean_windows data config k s).2.1.is_valid = true) :
    (get_clean_windows data config k s).2.2 = (get_clean_windows data config k s').2.2 := by
  cases data with
  | none => exact absurd hv (by simp [get_clean_windows])
  | some d =>
    by_cases h : shape1 d < winLenSamples config
    · rw [gcw_short k s h] at hv
      exact absurd hv (by simp)
    · by_cases hk : k ≤ (cleanWindows d config).length
      · rw [gcw_valid s h hk, gcw_valid s' h hk]
      · rw [gcw_invalid s h hk] at hv
        exact absurd hv (by simp)

/-- The processed trial and the QC summary row do not depend on the
incoming RNG state. -/
theorem process_trial_out_const (F N : AppConfig → Mat → Mat) (config : AppConfig)
    (trial : TrialData) (s s' : RngState) :
    (process_trial F N config trial s).1 = (process_trial F N config trial s').1 ∧
    (process_trial F N config trial s).2.1 = (process_trial F N config trial s').2.1 := by
  unfold process_trial
  have h1 := gcw_out_const
    (some (notch_filter_data N (filter_data F trial.raw_baseline_data config) config))
    config config.win.baseline_samples s s'
  have h2 := gcw_out_const
    (some (notch_filter_data N (filter_data F
      (trial.raw_stim_data.map (fun row =>
        row.drop (truncInt (config.win.stim_start * config.filter.sfreq)).toNat)) config) config))
    config config.win.stim_samples
    (get_clean_windows
      (some (notch_filter_data N (filter_data F trial.raw_baseline_data config) config))
      config config.win.baseline_samples s).2.2
    (get_clean_windows
      (some (notch_filter_data N (filter_data F trial.raw_baseline_data config) config))
      config config.win.baseline_samples s').2.2
  dsimp only
  rw [h1.1, h1.2, h2.1, h2.2]
  exact ⟨rfl, rfl⟩

/-- When the processed trial is valid, the RNG state after the loop body is
independent of the incoming state. -/
theorem process_trial_state_const {F N : AppConfig → Mat → Mat} {config : AppConfig}
    {trial : TrialData} {s : RngState} (s' : RngState)
    (hv : (process_trial F N config trial s).1.is_valid = true) :
    (process_trial F N config trial s).2.2 = (process_trial F N config trial s').2.2 := by
  unfold process_trial at hv ⊢
  simp only [Bool.and_eq_true] at hv
  exact gcw_state_const _ hv.2

/-- Outputs of the preprocessing pipeline do not depend on the initial RNG
state, and as soon as some processed trial is valid, neither does the final
RNG state. -/
theorem pipeline_out_const (F N : AppConfig → Mat → Mat) (config : AppConfig) :
    ∀ (ts : List TrialData) (s s' : RngState),
      (run_preprocessing_pipeline F N ts config s).1 =
        (run_preprocessing_pipeline F N ts config s').1 ∧
      (run_preprocessing_pipeline F N ts config s).2.1 =
        (run_preprocessing_pipeline F N ts config s').2.1 ∧
      ((∃ t ∈ (run_preprocessing_pipeline F N ts config s).1, t.is_valid = true) →
        (run_preprocessing_pipeline F N ts config s).2.2 =
          (run_preprocessing_pipeline F N ts config s').2.2) := by
  intro ts
  induction ts with
  | nil =>
    intro s s'
    refine ⟨rfl, rfl, ?_⟩
    rintro ⟨t, ht, -⟩
    simp [run_preprocessing_pipeline] at ht
  | cons a rest ih =>
    intro s s'
    have hpo := process_trial_out_const F N config a s s'
    have hrec := ih (process_trial F N config a s).2.2 (process_trial F N config a s').2.2
    simp only [run_preprocessing_pipeline]
    refine ⟨?_, ?_, ?_⟩
    · rw [hpo.1, hrec.1]
    · rw [hpo.2, hrec.2.1]
    · rintro ⟨t, ht, hv⟩
      rcases List.mem_cons.mp ht with h | h
      · subst h
        have hstate := process_trial_state_const s' hv
        rw [hstate]
      · exact hrec.2.2 ⟨t, h, hv⟩

/-- A feature row is only ever produced for a valid trial. -/
theorem featureRowOf_isSome {CF : AppConfig → Mat → List (String × ℚ × ℚ)}
    {config : AppConfig} {t : TrialData} {r : FeatureRow}
    (h : featureRowOf CF config t = some r) : t.is_valid = true := by
  by_cases hv : t.is_valid = true
  · exact hv
  · unfold featureRowOf at h
    rw [Bool.not_eq_true] at hv
    rw [hv] at h
    exact absurd h (by simp)

/-! ## C1 — end-to-end determinism of the pipeline -/

/-- C1: for fixed decoded inputs, configuration, filters and feature
function, two executions of the full pipeline started from *any* two global
RNG states produce identical processed trials (in particular identical
`clean_baseline_data` / `clean_stim_data` for every trial), identical QC
summary tables, and identical feature tables (every column, including
`dummy_valence`).  Hence two consecutive runs are bit-identical: the first
`np.random.seed(42)` executed for a valid segment makes every later draw a
function of the data alone, and when no trial is valid the feature table is
empty. -/
theorem c1_pipeline_deterministic (F N : AppConfig → Mat → Mat)
    (CF : AppConfig → Mat → List (String × ℚ × ℚ))
    (subjects : List SubjectInput) (config : AppConfig) (s s' : RngState) :
    (run_full_pipeline F N CF subjects config s).1 =
      (run_full_pipeline F N CF subjects config s').1 ∧
    (run_full_pipeline F N CF subjects config s).2.1 =
      (run_full_pipeline F N CF subjects config s').2.1 ∧
    (run_full_pipeline F N CF subjects config s).2.2.1 =
      (run_full_pipeline F N CF subjects config s').2.2.1 := by
  have hpipe := pipeline_out_const F N config (load_all_trial_data subjects config) s s'
  unfold run_full_pipeline extract_all_features
  dsimp only
  refine ⟨hpipe.1, hpipe.2.1, ?_⟩
  rw [hpipe.1]
  by_cases hempty :
      (((run_preprocessing_pipeline F N (load_all_trial_data subjects config) config s').1).filterMap
        (featureRowOf CF config)).isEmpty = true
  · rw [if_pos hempty, if_pos hempty]
  · have hex : ∃ t ∈ (run_preprocessing_pipeline F N
        (load_all_trial_data subjects config) config s').1, t.is_valid = true := by
      rcases List.exists_mem_of_ne_nil _ (by
          intro hnil
          rw [List.isEmpty_iff] at hempty
          exact hempty hnil) with ⟨r, hr⟩
      rcases List.mem_filterMap.mp hr with ⟨t, ht, hft⟩
      exact ⟨t, ht, featureRowOf_isSome hft⟩
    have hstate := hpipe.2.2 (by rw [hpipe.1]; exact hex)
    rw [if_neg hempty, if_neg hempty, hstate]

/-! ## C9 — window-selection postcondition -/

/-- `np.random.choice(n, k, replace=False)` after reseeding yields exactly
`k` indices when `k ≤ n`. -/
theorem chosenIdx_length {n k : ℕ} (h : k ≤ n) : (chosenIdx n k).length = k := by
  simp [chosenIdx, npChoice, npSeed, List.length_take, List.length_map,
    List.length_range, Nat.min_eq_left h]

/-- The drawn indices are pairwise distinct (sampling without replacement). -/
theorem chosenIdx_nodup (n k : ℕ) : (chosenIdx n k).Nodup := by
  have hmap : (((List.range n).map (fun i => (i + 42) % n))).Nodup := by
    rcases Nat.eq_zero_or_pos n with hn | hn
    · subst hn; simp
    · refine List.Nodup.map_on ?_ (List.nodup_range n)
      intro i hi j hj hij
      have hi' := List.mem_range.mp hi
      have hj' := List.mem_range.mp hj
      have h2 : i ≡ j [MOD n] := Nat.ModEq.add_right_cancel' 42 hij
      unfold Nat.ModEq at h2
      rwa [Nat.mod_eq_of_lt hi', Nat.mod_eq_of_lt hj'] at h2
  exact List.Nodup.sublist (List.take_sublist _ _) hmap

/-- Every drawn index addresses one of the clean windows. -/
theorem chosenIdx_lt (n k : ℕ) : ∀ i ∈ chosenIdx n k, i < n := by
  intro i hi
  have hi' := List.mem_of_mem_take hi
  rcases List.mem_map.mp hi' with ⟨j, hj, rfl⟩
  have hjn := List.mem_range.mp hj
  exact Nat.mod_lt _ (Nat.lt_of_le_of_lt (Nat.zero_le j) hjn)

theorem c9_wls : winLenSamples c9cfg = 2 := by
  norm_num [winLenSamples, truncInt, c9cfg]
  rfl

theorem c9_windows : windowsOf c9data 2 = [[[0, 0]], [[100, 0]], [[0, 100]]] := by
  norm_num [windowsOf, shape1, c9data, sliceCols, sliceRow, List.range_succ]

theorem c9_clean : cleanWindows c9data c9cfg = [[[0, 0]]] := by
  unfold cleanWindows
  rw [c9_wls, c9_windows]
  norm_num [check_window_quality, rowDiff, npAbs, c9cfg]

theorem c9_scenario_eval : get_clean_windows (some c9data) c9cfg 2 0 =
    (none, ⟨false, 1, 3, 1/3⟩, 0) := by
  have h1 : ¬ shape1 c9data < winLenSamples c9cfg := by
    rw [c9_wls]; norm_num [shape1, c9data]
  have h2 : ¬ 2 ≤ (cleanWindows c9data c9cfg).length := by
    rw [c9_clean]; norm_num
  rw [gcw_invalid 0 h1 h2, c9_clean, c9_wls]
  norm_num [shape1, c9data]

theorem c9w_clean : cleanWindows c9dataW c9cfg = [[[0, 0]], [[0, 0]]] := by
  unfold cleanWindows
  rw [c9_wls]
  norm_num [windowsOf, shape1, c9dataW, sliceCols, sliceRow, List.range_succ,
    check_window_quality, rowDiff, npAbs, c9cfg]

/-- C9: window-selection postcondition of `get_clean_windows`.
(1) If at least the required number of windows is clean, the call samples
exactly that many distinct clean-window indices (fixed seed: the whole
result, RNG state included, is independent of the incoming state `s`) and
returns their element-wise average with `is_valid = true`.
(2) Otherwise no epoch is produced and `is_valid = false`.
(3) Concretely, a segment with 3 windows of which 1 is clean and required
count 2 yields `QCResult(false, 1, 3, 1/3)` and no epoch; and
(4) a trial carrying that failed QC result is excluded from the feature
table. -/
theorem c9_selection_postcondition :
    (∀ (d : Mat) (config : AppConfig) (k : ℕ) (s : RngState),
        ¬ shape1 d < winLenSamples config →
        k ≤ (cleanWindows d config).length →
        ∃ idxs : List ℕ,
          idxs.Nodup ∧ idxs.length = k ∧
          (∀ i ∈ idxs, i < (cleanWindows d config).length) ∧
          get_clean_windows (some d) config k s =
            (some (meanMats (idxs.map (fun i => (cleanWindows d config).getD i []))),
             ⟨true, (cleanWindows d config).length, shape1 d / winLenSamples config,
              if 0 < shape1 d / winLenSamples config then
                ((cleanWindows d config).length : ℚ) / ((shape1 d / winLenSamples config : ℕ) : ℚ)
              else 0⟩,
             (npChoice (npSeed 42) (cleanWindows d config).length k).2)) ∧
    (∀ (d : Mat) (config : AppConfig) (k : ℕ) (s : RngState),
        (cleanWindows d config).length < k →
        (get_clean_windows (some d) config k s).1 = none ∧
        (get_clean_windows (some d) config k s).2.1.is_valid = false) ∧
    get_clean_windows (some c9data) c9cfg 2 0 = (none, ⟨false, 1, 3, 1/3⟩, 0) ∧
    (∀ (CF : AppConfig → Mat → List (String × ℚ × ℚ)) (s : RngState),
        extract_all_features CF [c9trial] c9cfg s = ([], s)) := by
  refine ⟨?_, ?_, c9_scenario_eval, ?_⟩
  · intro d config k s h hk
    exact ⟨chosenIdx (cleanWindows d config).length k, chosenIdx_nodup _ _,
      chosenIdx_length hk, chosenIdx_lt _ _, gcw_valid s h hk⟩
  · intro d config k s hk
    by_cases h : shape1 d < winLenSamples config
    · rw [gcw_short k s h]
      exact ⟨rfl, rfl⟩
    · rw [gcw_invalid s h (not_le.mpr hk)]
      exact ⟨rfl, rfl⟩
  · intro CF s
    simp [extract_all_features, featureRowOf, c9trial]

/-- Concrete instantiation of the valid branch of
`c9_selection_postcondition`: 2 clean windows, 2 required. -/
theorem c9_selection_postcondition_witness :
    ((¬ shape1 c9dataW < winLenSamples c9cfg) ∧ 2 ≤ (cleanWindows c9dataW c9cfg).length) ∧
    (∃ idxs : List ℕ,
        idxs.Nodup ∧ idxs.length = 2 ∧
        (∀ i ∈ idxs, i < (cleanWindows c9dataW c9cfg).length) ∧
        get_clean_windows (some c9dataW) c9cfg 2 0 =
          (some (meanMats (idxs.map (fun i => (cleanWindows c9dataW c9cfg).getD i []))),
           ⟨true, (cleanWindows c9dataW c9cfg).length, shape1 c9dataW / winLenSamples c9cfg,
            if 0 < shape1 c9dataW / winLenSamples c9cfg then
              ((cleanWindows c9dataW c9cfg).length : ℚ) / ((shape1 c9dataW / winLenSamples c9cfg : ℕ) : ℚ)
            else 0⟩,
           (npChoice (npSeed 42) (cleanWindows c9dataW c9cfg).length 2).2)) := by
  have h1 : ¬ shape1 c9dataW < winLenSamples c9cfg := by
    rw [c9_wls]; norm_num [shape1, c9dataW]
  have h2 : 2 ≤ (cleanWindows c9dataW c9cfg).length := by
    rw [c9w_clean]; norm_num
  exact ⟨⟨h1, h2⟩, c9_selection_postcondition.1 c9dataW c9cfg 2 0 h1 h2⟩

/-! ## C6 — event deduplication -/

/-- Deduplication yields a sublist: order is preserved and nothing new is
introduced. -/
theorem ddf_sublist {α β : Type} [DecidableEq β] (key : α → β) :
    ∀ l : List α, (drop_duplicates_first key l).Sublist l
  | [] => by simp [drop_duplicates_first]
  | a :: xs => by
    rw [drop_duplicates_first]
    refine List.Sublist.cons₂ a ?_
    exact List.Sublist.trans (ddf_sublist key _) (List.filter_sublist xs)
termination_by l => l.length
decreasing_by
  simp only [List.length_cons]
  exact Nat.lt_succ_of_le (List.length_filter_le _ _)

/-- `find?` is unchanged by removing elements the predicate cannot match. -/
theorem find?_filter_eq {α : Type} (p q : α → Bool) (h : ∀ a, p a = true → q a = true) :
    ∀ l : List α, (l.filter q).find? p = l.find? p := by
  intro l
  induction l with
  | nil => rfl
  | cons a l ih =>
    by_cases hp : p a = true
    · rw [List.filter_cons, if_pos (h a hp), List.find?_cons_of_pos _ hp,
        List.find?_cons_of_pos _ hp]
    · have hp' := Bool.not_eq_true _ ▸ hp
      by_cases hq : q a = true
      · rw [List.filter_cons, if_pos hq, List.find?_cons_of_neg _ hp,
          List.find?_cons_of_neg _ hp]
        exact ih
      · rw [List.filter_cons, if_neg hq, List.find?_cons_of_neg _ hp]
        exact ih

/-- Exact characterisation of `drop_duplicates(keep='first')`: an element is
kept iff it is the **first** element of the input carrying its key. -/
theorem mem_ddf_iff {α β : Type} [DecidableEq β] (key : α → β) :
    ∀ (l : List α) (x : α),
      x ∈ drop_duplicates_first key l ↔
        l.find? (fun y => decide (key y = key x)) = some x
  | [], x => by simp [drop_duplicates_first]
  | a :: xs, x => by
    rw [drop_duplicates_first]
    by_cases hxa : key a = key x
    · rw [List.find?_cons_of_pos _ (by simp [hxa])]
      constructor
      · intro hmem
        rcases List.mem_cons.mp hmem with h | h
        · rw [h]
        · have hsub := (ddf_sublist key _).subset h
          have := List.of_mem_filter hsub
          exact absurd hxa.symm (of_decide_eq_true this)
      · intro hfind
        have := Option.some.inj hfind
        rw [← this]
        exact List.mem_cons_self a _
    · rw [List.find?_cons_of_neg _ (by simp [hxa])]
      constructor
      · intro hmem
        rcases List.mem_cons.mp hmem with h | h
        · exact absurd (h ▸ rfl : key a = key x) hxa
        · have hr := (mem_ddf_iff key (xs.filter (fun y => decide (¬ key y = key a))) x).mp h
          rwa [find?_filter_eq _ _ ?_ xs] at hr
          intro y hy
          have h1 : key y = key x := of_decide_eq_true hy
          refine decide_eq_true ?_
          intro h2
          exact hxa (h2 ▸ h1)
      · intro hfind
        refine List.mem_cons_of_mem a ?_
        refine (mem_ddf_iff key (xs.filter (fun y => decide (¬ key y = key a))) x).mpr ?_
        rw [find?_filter_eq _ _ ?_ xs]
        · exact hfind
        · intro y hy
          have h1 : key y = key x := of_decide_eq_true hy
          refine decide_eq_true ?_
          intro h2
          exact hxa (h2 ▸ h1)
termination_by l _ => l.length
decreasing_by
  simp only [List.length_cons]
  all_goals exact Nat.lt_succ_of_le (List.length_filter_le _ _)

/-- C6: deduplication of decoded events keeps exactly the first occurrence
of each event code, preserving ascending order.  Concretely
`[(10,"A"),(20,"B"),(30,"A")]` resolves to `[(10,"A"),(20,"B")]`, with the
notice recording 3 detected events and 2 unique ones (1 duplicate dropped);
in general an event survives iff it is the first with its code, and the
resolved list is an order-preserving sublist of the input. -/
theorem c6_deduplication :
    drop_duplicates_first Prod.snd [((10 : ℕ), "A"), (20, "B"), (30, "A")] =
      [((10 : ℕ), "A"), (20, "B")] ∧
    (resolve_unique_events Prod.snd [((10 : ℕ), "A"), (20, "B"), (30, "A")]).2 =
      some (3, 2) ∧
    (∀ (events : List Event) (e : Event),
        e ∈ (resolve_unique_events (fun ev => ev.event_id) events).1 ↔
          events.find? (fun y => decide (y.event_id = e.event_id)) = some e) ∧
    (∀ events : List Event,
        ((resolve_unique_events (fun ev => ev.event_id) events).1).Sublist events) := by
  refine ⟨?_, ?_, ?_, ?_⟩
  · simp [drop_duplicates_first]
  · simp [resolve_unique_events, drop_duplicates_first]
  · intro events e
    exact mem_ddf_iff (fun ev => ev.event_id) events e
  · intro events
    exact ddf_sublist (fun ev => ev.event_id) events

/-! ## C2 — the baseline-ratio transform -/

/-- C2 counterexample: at a valid trial whose baseline and stimulus feature
values are exactly 0 (e.g. the variance-based differential entropy of an
all-zero epoch), the emitted FP1 ratio is −1, whereas the claimed formula
`(stim - baseline) / (baseline + eps)` gives 0: the code subtracts
`base_val = baseline + 1e-9` (epsilon included) in the numerator. -/
theorem c2_ratio_counterexample :
    ((extract_all_features c2cf [c2trial] defaultConfig 0).1.map FeatureRow.cols) =
      [[("FP1_f_ratio", -1), ("FP2_f_ratio", -1), ("f_asymmetry", 0)]] ∧
    ((0 : ℚ) - 0) / (0 + eps) = 0 ∧ (-1 : ℚ) ≠ 0 := by
  refine ⟨?_, by norm_num, by norm_num⟩
  have hrow : featureRowOf c2cf defaultConfig c2trial =
      some ⟨"Sub1", 3, PreferenceLabel.NEUTRAL,
        [("FP1_f_ratio", -1), ("FP2_f_ratio", -1), ("f_asymmetry", 0)], none⟩ := by
    unfold featureRowOf ratioCols lookupFeat
    norm_num [c2trial, c2cf, eps, List.find?]
    exact ⟨rfl, rfl, rfl⟩
  unfold extract_all_features
  rw [List.filterMap_cons, hrow]
  norm_num [npUniformDraws, List.range_succ]

/-- C2 corrected: for every valid trial and every feature name, the emitted
per-channel ratio equals `(stim_value - (baseline_value + eps)) /
(baseline_value + eps)` with `eps = 1e-9` — the claimed formula minus
`eps / (baseline_value + eps)`, which vanishes for baselines much larger
than `eps` but shifts the ratio by exactly −1 at a zero baseline. -/
theorem c2_ratio_amended (CF : AppConfig → Mat → List (String × ℚ × ℚ))
    (config : AppConfig) (t : TrialData) (h : t.is_valid = true) :
    ∃ row, featureRowOf CF config t = some row ∧
      ∀ p ∈ CF config (t.clean_baseline_data.getD []),
        ("FP1_" ++ p.1 ++ "_ratio",
          ((lookupFeat (CF config (t.clean_stim_data.getD [])) p.1).1 - (p.2.1 + eps)) /
            (p.2.1 + eps)) ∈ row.cols ∧
        ("FP2_" ++ p.1 ++ "_ratio",
          ((lookupFeat (CF config (t.clean_stim_data.getD [])) p.1).2 - (p.2.2 + eps)) /
            (p.2.2 + eps)) ∈ row.cols := by
  unfold featureRowOf
  rw [if_pos h]
  refine ⟨_, rfl, ?_⟩
  intro p hp
  constructor
  · unfold ratioCols
    refine List.mem_flatMap.mpr ⟨p, hp, ?_⟩
    exact List.mem_cons_self _ _
  · unfold ratioCols
    refine List.mem_flatMap.mpr ⟨p, hp, ?_⟩
    exact List.mem_cons_of_mem _ (List.mem_cons_self _ _)

/-- Concrete instantiation of `c2_ratio_amended` at the all-zero-feature
trial. -/
theorem c2_ratio_amended_witness :
    c2trial.is_valid = true ∧
    (∃ row, featureRowOf c2cf defaultConfig c2trial = some row ∧
      ∀ p ∈ c2cf defaultConfig (c2trial.clean_baseline_data.getD []),
        ("FP1_" ++ p.1 ++ "_ratio",
          ((lookupFeat (c2cf defaultConfig (c2trial.clean_stim_data.getD [])) p.1).1 -
            (p.2.1 + eps)) / (p.2.1 + eps)) ∈ row.cols ∧
        ("FP2_" ++ p.1 ++ "_ratio",
          ((lookupFeat (c2cf defaultConfig (c2trial.clean_stim_data.getD [])) p.1).2 -
            (p.2.2 + eps)) / (p.2.2 + eps)) ∈ row.cols) :=
  ⟨rfl, c2_ratio_amended c2cf defaultConfig c2trial rfl⟩

/-! ## C8 — preference labelling -/

/-- The preference computed by the survey join is the first-matching-row
rule. -/
theorem surveyFields_fst (survey : Option (List SurveyRow)) (trial_id : ℤ) :
    (surveyFields survey trial_id).1 = firstMatchPreference survey trial_id := by
  cases survey with
  | none => rfl
  | some rows =>
    by_cases h : rows.isEmpty
    · have hnil : rows = [] := List.isEmpty_iff.mp h
      subst hnil
      rfl
    · unfold surveyFields firstMatchPreference
      dsimp only [Option.getD_some]
      rw [if_neg h]
      cases hh : (rows.filter (fun r => decide (r.trial_id = trial_id))).head? with
      | none => rfl
      | some row => cases row.like_score <;> rfl

/-- A produced trial's id is the event code of the event it came from. -/
theorem mkTrial_some_fields {raw : Mat} {config : AppConfig} {sid : String}
    {survey : Option (List SurveyRow)} {e : Event} {t : TrialData}
    (h : mkTrialOfEvent raw config sid survey e = some t) :
    t.trial_id = e.event_id ∧ t.preference = (surveyFields survey e.event_id).1 := by
  unfold mkTrialOfEvent at h
  by_cases hb : e.sample - truncInt (config.win.baseline_len * config.filter.sfreq) < 0 ∨
      (shape1 raw : ℤ) < e.sample + truncInt (config.win.stim_end * config.filter.sfreq)
  · rw [if_pos hb] at h
    exact absurd h (by simp)
  · rw [if_neg hb] at h
    have := Option.some.inj h
    rw [← this]
    exact ⟨rfl, rfl⟩

/-- Evaluation of `extract_trials` on the C8 input: one trial, labelled
NEUTRAL. -/
theorem c8_extract_eval :
    extract_trials c8raw [c8event] c8cfg "Sub1" (some c8survey) = [c8trialOut] := by
  unfold extract_trials mkTrialOfEvent surveyFields
  norm_num [c8event, c8cfg, c8raw, c8survey, c8trialOut, truncInt, shape1,
    sliceCols, sliceRow, List.filter, List.filterMap_cons]
  rfl

/-- C8 counterexample: a matching survey row with score 9 (≥ 6) exists, yet
the produced trial is NEUTRAL, because the code reads only the **first**
matching row (`iloc[0]`), whose score is missing. -/
theorem c8_preference_counterexample :
    (extract_trials c8raw [c8event] c8cfg "Sub1" (some c8survey)).map
        TrialData.preference = [PreferenceLabel.NEUTRAL] ∧
    (∃ r ∈ c8survey, r.trial_id = 5 ∧ r.like_score = some 9) ∧
    (6 : ℚ) ≤ 9 ∧ PreferenceLabel.NEUTRAL ≠ PreferenceLabel.LIKE := by
  refine ⟨?_, ⟨⟨5, some 9, none, none⟩, ?_, rfl, rfl⟩, by norm_num, by decide⟩
  · rw [c8_extract_eval]
    rfl
  · simp [c8survey]

/-- C8 corrected: the preference of every produced trial follows the
first-matching-row rule — the first survey row whose `trial_id` matches
decides (LIKE iff its score is ≥ 6, DISLIKE iff ≤ 2, NEUTRAL otherwise or
when its score is missing), and NEUTRAL when no row matches. -/
theorem c8_preference_amended (raw : Mat) (events : List Event) (config : AppConfig)
    (sid : String) (survey : Option (List SurveyRow)) :
    ∀ t ∈ extract_trials raw events config sid survey,
      t.preference = firstMatchPreference survey t.trial_id := by
  intro t ht
  unfold extract_trials at ht
  rcases List.mem_filterMap.mp ht with ⟨e, _, hmk⟩
  rcases mkTrial_some_fields hmk with ⟨hid, hpref⟩
  rw [hid, hpref, surveyFields_fst]

/-- Concrete instantiation of `c8_preference_amended` on the C8 input. -/
theorem c8_preference_amended_witness :
    c8trialOut ∈ extract_trials c8raw [c8event] c8cfg "Sub1" (some c8survey) ∧
    c8trialOut.preference = firstMatchPreference (some c8survey) c8trialOut.trial_id := by
  have hmem : c8trialOut ∈ extract_trials c8raw [c8event] c8cfg "Sub1" (some c8survey) := by
    rw [c8_extract_eval]
    exact List.mem_cons_self _ _
  exact ⟨hmem, c8_preference_amended c8raw [c8event] c8cfg "Sub1" (some c8survey)
    c8trialOut hmem⟩

/-! ## C10 — the implicit event-code filter -/

/-- C10: in `extract_trials`, when any event code exceeds 2 every event with
code ≤ 2 is silently excluded — only events with code > 2 reach trial
construction, so every produced trial has `trial_id > 2`; when no event code
exceeds 2 all events are retained; consequently trials with id ≤ 2 never
appear alongside trials with id > 2. -/
theorem c10_event_code_filter (raw : Mat) (events : List Event) (config : AppConfig)
    (sid : String) (survey : Option (List SurveyRow)) :
    ((∃ e ∈ events, 2 < e.event_id) →
       extract_trials raw events config sid survey =
         (events.filter (fun e => decide (2 < e.event_id))).filterMap
           (mkTrialOfEvent raw config sid survey) ∧
       ∀ t ∈ extract_trials raw events config sid survey, 2 < t.trial_id) ∧
    ((∀ e ∈ events, ¬ 2 < e.event_id) →
       extract_trials raw events config sid survey =
         events.filterMap (mkTrialOfEvent raw config sid survey)) ∧
    (∀ t₁ ∈ extract_trials raw events config sid survey,
     ∀ t₂ ∈ extract_trials raw events config sid survey,
       2 < t₂.trial_id → 2 < t₁.trial_id) := by
  have hchar : ∀ (hany : events.any (fun e => decide (2 < e.event_id)) = true),
      extract_trials raw events config sid survey =
        (events.filter (fun e => decide (2 < e.event_id))).filterMap
          (mkTrialOfEvent raw config sid survey) := by
    intro hany
    unfold extract_trials
    rw [if_pos hany]
  have hall : ∀ t ∈ extract_trials raw events config sid survey,
      events.any (fun e => decide (2 < e.event_id)) = true → 2 < t.trial_id := by
    intro t ht hany
    rw [hchar hany] at ht
    rcases List.mem_filterMap.mp ht with ⟨e, he, hmk⟩
    rcases mkTrial_some_fields hmk with ⟨hid, -⟩
    rw [hid]
    exact of_decide_eq_true (List.mem_filter.mp he).2
  refine ⟨?_, ?_, ?_⟩
  · intro hex
    have hany : events.any (fun e => decide (2 < e.event_id)) = true :=
      List.any_eq_true.mpr ⟨hex.choose, hex.choose_spec.1, decide_eq_true hex.choose_spec.2⟩
    exact ⟨hchar hany, fun t ht => hall t ht hany⟩
  · intro hnone
    unfold extract_trials
    rw [if_neg ?_]
    intro hany
    rcases List.any_eq_true.mp hany with ⟨e, he, hgt⟩
    exact hnone e he (of_decide_eq_true hgt)
  · intro t₁ h₁ t₂ h₂ hgt₂
    by_cases hany : events.any (fun e => decide (2 < e.event_id)) = true
    · exact hall t₁ h₁ hany
    · exfalso
      have hnone : ∀ e ∈ events, ¬ 2 < e.event_id := by
        intro e he hgt
        exact hany (List.any_eq_true.mpr ⟨e, he, decide_eq_true hgt⟩)
      have ht₂ : extract_trials raw events config sid survey =
          events.filterMap (mkTrialOfEvent raw config sid survey) := by
        unfold extract_trials
        rw [if_neg hany]
      rw [ht₂] at h₂
      rcases List.mem_filterMap.mp h₂ with ⟨e, he, hmk⟩
      rcases mkTrial_some_fields hmk with ⟨hid, -⟩
      rw [hid] at hgt₂
      exact hnone e he hgt₂

/-- Concrete instantiation of `c10_event_code_filter`: one practice event
(code 1) and one stimulus event (code 5). -/
theorem c10_event_code_filter_witness :
    (∃ e ∈ c10events, 2 < e.event_id) ∧
    (extract_trials c8raw c10events c8cfg "Sub1" none =
       (c10events.filter (fun e => decide (2 < e.event_id))).filterMap
         (mkTrialOfEvent c8raw c8cfg "Sub1" none) ∧
     ∀ t ∈ extract_trials c8raw c10events c8cfg "Sub1" none, 2 < t.trial_id) :=
  ⟨⟨⟨1, 5⟩, by decide, by decide⟩,
   (c10_event_code_filter c8raw c10events c8cfg "Sub1" none).1
     ⟨⟨1, 5⟩, by decide, by decide⟩⟩
